import Mathlib

/-!
Verification of the package-to-CDN-asset resolver of `pkg/cmd/generate/cdn/cdn.go`.

The resolver is shallowly embedded: Go maps become association lists over
`String` keys, the two in-memory caches become an explicit `ResolverState`
threaded through the functions, remote HTTP traffic is abstracted by a
`World` giving the response each endpoint would produce for each key, and a
request log (`Effects`) records which network calls were actually issued.
Cooperative cancellation is modelled by a boolean flag: Go's `http.Client.Do`
fails immediately, without issuing the request, when the supplied context is
already canceled, which is the behaviour the flag reproduces.
-/

set_option autoImplicit false

deriving instance DecidableEq for Except

namespace CdnResolver

/-- Association-list lookup with propositional key equality, modelling a Go
map read (`v, ok := m[k]`): the first binding for the key wins. -/
def lookupKV {α : Type} : List (String × α) → String → Option α
  | [], _ => none
  | p :: rest, k => if p.1 = k then some p.2 else lookupKV rest k

/-- Association-list insert modelling a Go map write (`m[k] = v`): any
previous binding for the key is replaced. -/
def insertKV {α : Type} (m : List (String × α)) (k : String) (v : α) : List (String × α) :=
  m.filter (fun p => p.1 ≠ k) ++ [(k, v)]

/-- Embedding of `packageVersion` from cdn.go: NPM metadata for one specific version.
The `Browser` field is decoded by the Go code but never read, so it is not
modelled. -/
structure packageVersion where
  jsdelivr : String
  unpkg : String
  module : String
  main : String
  deriving DecidableEq

/-- Embedding of `packageMetadata` from cdn.go.  `DistTags` is a Go map that may be `nil`
(`none` here); `Versions` is an association list from version to entry. -/
structure packageMetadata where
  distTags : Option (List (String × String))
  versions : List (String × packageVersion)
  deriving DecidableEq

/-- Embedding of `PackageSpec` from cdn.go: information about a package from the data file. -/
structure PackageSpec where
  name : String
  file : String
  packageName : String
  deriving DecidableEq

/-- Embedding of `ResolvedPackage` from cdn.go: a fully populated package ready for
templating (the embedded `PackageSpec` is flattened into the structure). -/
structure ResolvedPackage where
  name : String
  file : String
  packageName : String
  integrity : String
  src : String
  version : String
  deriving DecidableEq

/-- Embedding of `CDNFile` from cdn.go: one entry of the jsDelivr flat file listing. -/
structure CDNFile where
  name : String
  hash : String
  deriving DecidableEq

/-- Every distinct error produced by the resolver, mirroring the
`fmt.Errorf` sites of cdn.go together with the data interpolated into the
message.  Spec taxonomy: `transportError` is `TransportError` (including
cancellation), `metadataStatus` is `MetadataUnavailable`, `listingStatus` is
`ListingUnavailable`, `noDistTags`/`noLatestTag` are `NoLatestVersion`,
`noPkgInfo` is `VersionAssetsMissing`, `noDefaultFile` is `NoDefaultFile`,
`emptyPath`/`pathResolvesToRoot` are the sanitizer failures and
`fileNotOnCDN` is `FileNotOnCDN`. -/
inductive ResolveError where
  | transportError (msg : String)
  | metadataStatus (pkgName status : String)
  | decodeError
  | noDistTags (name : String)
  | noLatestTag (name : String)
  | noPkgInfo (name version : String)
  | noDefaultFile (packageName version : String)
  | emptyPath
  | pathResolvesToRoot (file : String)
  | listingStatus (url status : String)
  | fileNotOnCDN (file snippetName : String)
  deriving DecidableEq

/-- Decoded body of an HTTP response: either a JSON decode failure or the
decoded value. -/
inductive Body (α : Type) where
  | decodeErr
  | ok (v : α)
  deriving DecidableEq

/-- Outcome of `http.Client.Do` for one request: a transport error, or a
response with a numeric status code, a status line and a body. -/
inductive DoResult (α : Type) where
  | doErr (msg : String)
  | resp (code : Nat) (status : String) (body : Body α)
  deriving DecidableEq

/-- The remote registries, as the response each endpoint would give:
metadata keyed by package name, the flat listing keyed by
`packageName@version`. -/
structure World where
  metaResp : String → DoResult packageMetadata
  listResp : String → DoResult (List CDNFile)

/-- Log of the network requests actually issued (a request that fails before
reaching the network, e.g. under an already-canceled context, is not
logged). -/
structure Effects where
  metaReqs : List String
  listReqs : List String
  deriving DecidableEq

/-- No network requests. -/
def Effects.nofx : Effects := { metaReqs := [], listReqs := [] }

/-- Concatenation of two request logs. -/
def Effects.app (a b : Effects) : Effects :=
  { metaReqs := a.metaReqs ++ b.metaReqs, listReqs := a.listReqs ++ b.listReqs }

/-- The two caches of a `Resolver` (`metaCache` and `cdnCache` in cdn.go). -/
structure ResolverState where
  metaCache : List (String × packageMetadata)
  cdnCache : List (String × List (String × String))
  deriving DecidableEq

/-- The state `NewResolver` starts from: both caches empty. -/
def initState : ResolverState := { metaCache := [], cdnCache := [] }

/-- The error message of a request failed by an already-canceled context. -/
def contextCanceled : String := "context canceled"

def npmRegistryURL : String := "https://registry.npmjs.org"

def jsDelivrDataURL : String := "https://data.jsdelivr.com/v1/package/npm"

def jsDelivrCdnURL : String := "https://cdn.jsdelivr.net/npm"

/-- Embedding of `strings.TrimRight(s, "/")`: remove all trailing slashes. -/
def trimRightSlashes (s : String) : String :=
  String.mk ((s.toList.reverse.dropWhile (fun c => c = '/')).reverse)

/-- Embedding of `unicode.IsSpace` on the characters relevant to `strings.TrimSpace`:
the Unicode White_Space property. -/
def goIsSpace (c : Char) : Bool :=
  c = ' ' ∨ c = '\t' ∨ c = '\n' ∨ c.toNat = 11 ∨ c.toNat = 12 ∨ c = '\r' ∨
    c.toNat = 133 ∨ c.toNat = 160 ∨ c.toNat = 5760 ∨
    (8192 ≤ c.toNat ∧ c.toNat ≤ 8202) ∨ c.toNat = 8232 ∨ c.toNat = 8233 ∨
    c.toNat = 8239 ∨ c.toNat = 8287 ∨ c.toNat = 12288

/-- Embedding of `strings.TrimSpace`: drop leading and trailing white space. -/
def trimSpace (s : String) : String :=
  String.mk (((s.toList.dropWhile goIsSpace).reverse.dropWhile goIsSpace).reverse)

/-- Split a character list on `/`, keeping empty segments (the segment view
of a slash-separated path). -/
def splitSegsAux : List Char → List Char → List String
  | [], acc => [String.mk acc.reverse]
  | c :: rest, acc =>
    if c = '/' then String.mk acc.reverse :: splitSegsAux rest []
    else splitSegsAux rest (c :: acc)

/-- One step of lexical path cleaning on the segment stack: empty and `.`
segments are dropped, `..` pops the last segment (at the root it is simply
discarded, as `path.Clean` does for rooted paths), and any other segment is
pushed. -/
def cleanStep (stack : List String) (seg : String) : List String :=
  if seg = "" then stack
  else if seg = "." then stack
  else if seg = ".." then stack.dropLast
  else stack ++ [seg]

/-- Join cleaned segments back with `/` separators. -/
def joinSegs : List String → String
  | [] => ""
  | [s] => s
  | s :: t :: rest => s ++ "/" ++ joinSegs (t :: rest)

/-- Go's `path.Clean` on a rooted input (the only way `sanitizeFilePath`
calls it, since it always prepends `"/"`): drop empty and `.` segments,
resolve `..` against the stack (discarding it at the root), and rebuild the
path behind the root separator; an empty stack yields `"/"`. -/
def pathCleanRooted (p : String) : String :=
  "/" ++ joinSegs ((splitSegsAux p.toList []).foldl cleanStep [])

/-- Embedding of `sanitizeFilePath` from cdn.go. -/
def sanitizeFilePath (file : String) : Except ResolveError String :=
  let trimmed := trimSpace file
  if trimmed = "" then .error .emptyPath
  else
    let cleaned := pathCleanRooted ("/" ++ trimmed)
    if cleaned = "/" then .error (.pathResolvesToRoot file)
    else .ok cleaned

/-- Embedding of `latestVersion` from cdn.go. -/
def latestVersion (metaData : packageMetadata) (name : String) : Except ResolveError String :=
  match metaData.distTags with
  | none => .error (.noDistTags name)
  | some tags =>
    match lookupKV tags "latest" with
    | none => .error (.noLatestTag name)
    | some latest => if latest = "" then .error (.noLatestTag name) else .ok latest

/-- Embedding of `defaultFile` from cdn.go: the fixed fallback chain over the version's
entry-point fields. -/
def defaultFile (metaData : packageMetadata) (packageName name version : String) :
    Except ResolveError String :=
  match lookupKV metaData.versions version with
  | none => .error (.noPkgInfo name version)
  | some pkgInfo =>
    if pkgInfo.jsdelivr ≠ "" then .ok ("/" ++ pkgInfo.jsdelivr)
    else if pkgInfo.unpkg ≠ "" then .ok ("/" ++ pkgInfo.unpkg)
    else if pkgInfo.module ≠ "" then .ok ("/" ++ pkgInfo.module)
    else if pkgInfo.main ≠ "" then .ok ("/" ++ pkgInfo.main)
    else .error (.noDefaultFile packageName version)

/-- Embedding of `cachedMetadata` from cdn.go. -/
def cachedMetadata (st : ResolverState) (pkgName : String) : Option packageMetadata :=
  lookupKV st.metaCache pkgName

/-- Embedding of `storeMetadata` from cdn.go. -/
def storeMetadata (st : ResolverState) (pkgName : String) (meta : packageMetadata) :
    ResolverState :=
  { st with metaCache := insertKV st.metaCache pkgName meta }

/-- Embedding of `cachedCDNFiles` from cdn.go. -/
def cachedCDNFiles (st : ResolverState) (packageName version : String) :
    Option (List (String × String)) :=
  lookupKV st.cdnCache (packageName ++ "@" ++ version)

/-- Embedding of `storeCDNFiles` from cdn.go. -/
def storeCDNFiles (st : ResolverState) (packageName version : String)
    (hashes : List (String × String)) : ResolverState :=
  { st with cdnCache := insertKV st.cdnCache (packageName ++ "@" ++ version) hashes }

/-- Embedding of `fetchNPMMetadata` from cdn.go: cache check, then the network request
(which an already-canceled context fails before it is issued), status
check against 200, decode, store, return. -/
def fetchNPMMetadata (w : World) (ctxCanceled : Bool) (st : ResolverState) (pkgName : String) :
    Except ResolveError packageMetadata × ResolverState × Effects :=
  match cachedMetadata st pkgName with
  | some meta => (.ok meta, st, Effects.nofx)
  | none =>
    if ctxCanceled then (.error (.transportError contextCanceled), st, Effects.nofx)
    else
      match w.metaResp pkgName with
      | .doErr msg => (.error (.transportError msg), st, ⟨[pkgName], []⟩)
      | .resp code status body =>
        if code ≠ 200 then
          (.error (.metadataStatus pkgName status), st, ⟨[pkgName], []⟩)
        else
          match body with
          | .decodeErr => (.error .decodeError, st, ⟨[pkgName], []⟩)
          | .ok metaData => (.ok metaData, storeMetadata st pkgName metaData, ⟨[pkgName], []⟩)

/-- The hash map built from the decoded listing (cdn.go lines 321-324):
each name maps to its hash prefixed with the fixed `"sha256-"` scheme tag;
on duplicate names the later entry wins, as for a Go map. -/
def buildHashes (files : List CDNFile) : List (String × String) :=
  files.foldl (fun acc f => insertKV acc f.name ("sha256-" ++ f.hash)) []

/-- Embedding of `cdnFiles` from cdn.go: cache check under `packageName@version`, then
the listing request, status check against 200, decode, hash-map build,
store, return. -/
def cdnFiles (w : World) (ctxCanceled : Bool) (st : ResolverState) (packageName version : String) :
    Except ResolveError (List (String × String)) × ResolverState × Effects :=
  let url := trimRightSlashes jsDelivrDataURL ++ "/" ++ packageName ++ "@" ++ version ++ "/flat"
  match cachedCDNFiles st packageName version with
  | some hashes => (.ok hashes, st, Effects.nofx)
  | none =>
    if ctxCanceled then (.error (.transportError contextCanceled), st, Effects.nofx)
    else
      match w.listResp (packageName ++ "@" ++ version) with
      | .doErr msg => (.error (.transportError msg), st, ⟨[], [packageName ++ "@" ++ version]⟩)
      | .resp code status body =>
        if code ≠ 200 then
          (.error (.listingStatus url status), st, ⟨[], [packageName ++ "@" ++ version]⟩)
        else
          match body with
          | .decodeErr => (.error .decodeError, st, ⟨[], [packageName ++ "@" ++ version]⟩)
          | .ok files =>
            (.ok (buildHashes files), storeCDNFiles st packageName version (buildHashes files),
              ⟨[], [packageName ++ "@" ++ version]⟩)

/-- Embedding of `cdnSrc` from cdn.go: the derived CDN asset URL. -/
def cdnSrc (packageName version file : String) : String :=
  trimRightSlashes jsDelivrCdnURL ++ "/" ++ packageName ++ "@" ++ version ++ file

/-- Embedding of `includeLink` from cdn.go: fetch the listing, look the file up, and
return the integrity hash together with the asset URL. -/
def includeLink (w : World) (ctxCanceled : Bool) (st : ResolverState)
    (packageName version file snippetName : String) :
    Except ResolveError (String × String) × ResolverState × Effects :=
  match cdnFiles w ctxCanceled st packageName version with
  | (.error e, st', eff) => (.error e, st', eff)
  | (.ok hashes, st', eff) =>
    match lookupKV hashes file with
    | none => (.error (.fileNotOnCDN file snippetName), st', eff)
    | some hash => (.ok (hash, cdnSrc packageName version file), st', eff)

/-- The effective registry identity of a spec: `PackageName` defaulted to
`Name` when empty (cdn.go lines 111-113). -/
def effectivePackageName (pkg : PackageSpec) : String :=
  if pkg.packageName = "" then pkg.name else pkg.packageName

/-- The file-selection step of `ResolveWithContext` (cdn.go lines 127-134):
an explicit file from the spec is used as is, otherwise the fallback chain
of `defaultFile` decides. -/
def chooseFile (pkg : PackageSpec) (metaData : packageMetadata) (version : String) :
    Except ResolveError String :=
  if pkg.file = "" then defaultFile metaData (effectivePackageName pkg) pkg.name version
  else .ok pkg.file

/-- Embedding of `ResolveWithContext` from cdn.go: the whole resolution pipeline. -/
def ResolveWithContext (w : World) (ctxCanceled : Bool) (st : ResolverState) (pkg : PackageSpec) :
    Except ResolveError ResolvedPackage × ResolverState × Effects :=
  let packageName := effectivePackageName pkg
  match fetchNPMMetadata w ctxCanceled st packageName with
  | (.error e, st1, eff1) => (.error e, st1, eff1)
  | (.ok metaData, st1, eff1) =>
    match latestVersion metaData pkg.name with
    | .error e => (.error e, st1, eff1)
    | .ok version =>
      match chooseFile pkg metaData version with
      | .error e => (.error e, st1, eff1)
      | .ok chosen =>
        match sanitizeFilePath chosen with
        | .error e => (.error e, st1, eff1)
        | .ok file =>
          match includeLink w ctxCanceled st1 packageName version file pkg.name with
          | (.error e, st2, eff2) => (.error e, st2, Effects.app eff1 eff2)
          | (.ok (integrity, src), st2, eff2) =>
            (.ok { name := pkg.name, file := file, packageName := packageName,
                   integrity := integrity, src := src, version := version },
             st2, Effects.app eff1 eff2)

/-- Embedding of `Resolve` from cdn.go: `ResolveWithContext` under `context.Background()`,
which is never canceled. -/
def Resolve (w : World) (st : ResolverState) (pkg : PackageSpec) :
    Except ResolveError ResolvedPackage × ResolverState × Effects :=
  ResolveWithContext w false st pkg

/-! ### Concrete fixtures -/

/-- Version entry of the happy-path fixture: only the jsDelivr field set. -/
def demoEntry : packageVersion :=
  { jsdelivr := "index.js", unpkg := "", module := "", main := "" }

/-- Metadata of the happy-path fixture: `distTags = {latest: "1.2.3"}`,
`versions["1.2.3"] = demoEntry`. -/
def demoMeta : packageMetadata :=
  { distTags := some [("latest", "1.2.3")], versions := [("1.2.3", demoEntry)] }

/-- Remote world of the happy-path fixture: metadata for `foo`, a flat
listing for `foo@1.2.3` holding `/index.js` with hash `HASH_INDEX`. -/
def demoWorld : World :=
  { metaResp := fun k =>
      if k = "foo" then .resp 200 "200 OK" (.ok demoMeta) else .doErr "no route",
    listResp := fun k =>
      if k = "foo@1.2.3" then .resp 200 "200 OK" (.ok [{ name := "/index.js", hash := "HASH_INDEX" }])
      else .doErr "no route" }

/-- The happy-path spec: `{packageName: "foo", name: "snippet1"}`, no file. -/
def demoSpec : PackageSpec := { name := "snippet1", file := "", packageName := "foo" }

/-- The resolution the happy-path fixture produces. -/
def demoResolved : ResolvedPackage :=
  { name := "snippet1", file := "/index.js", packageName := "foo",
    integrity := "sha256-HASH_INDEX",
    src := "https://cdn.jsdelivr.net/npm/foo@1.2.3/index.js", version := "1.2.3" }

/-- The caches after the happy-path resolution. -/
def demoState1 : ResolverState :=
  { metaCache := [("foo", demoMeta)],
    cdnCache := [("foo@1.2.3", [("/index.js", "sha256-HASH_INDEX")])] }

/-- The requests the happy-path resolution issues: one of each. -/
def demoEffects1 : Effects := { metaReqs := ["foo"], listReqs := ["foo@1.2.3"] }

/-! ### Association-list lemmas -/

theorem lookupKV_filter_ne {α : Type} (m : List (String × α)) (k : String) :
    lookupKV (m.filter (fun p => p.1 ≠ k)) k = none := by
  induction m with
  | nil => simp [lookupKV]
  | cons p t ih =>
    simp only [decide_not] at ih ⊢
    by_cases h : p.1 = k
    · simpa [List.filter_cons, h] using ih
    · simpa [List.filter_cons, h, lookupKV] using ih

theorem lookupKV_filter_other {α : Type} (m : List (String × α)) (k k' : String)
    (h : k' ≠ k) :
    lookupKV (m.filter (fun p => p.1 ≠ k)) k' = lookupKV m k' := by
  induction m with
  | nil => rfl
  | cons p t ih =>
    simp only [decide_not] at ih ⊢
    by_cases hp : p.1 = k
    · have hkk' : ¬ k = k' := fun hc => h hc.symm
      simp [List.filter_cons, hp, lookupKV, hkk', ih]
    · by_cases hk' : p.1 = k' <;> simp [List.filter_cons, hp, lookupKV, hk', h, ih]

theorem lookupKV_append {α : Type} (l₁ l₂ : List (String × α)) (k : String) :
    lookupKV (l₁ ++ l₂) k =
      (match lookupKV l₁ k with | some v => some v | none => lookupKV l₂ k) := by
  induction l₁ with
  | nil => simp [lookupKV]
  | cons p t ih =>
    by_cases h : p.1 = k <;> simp [lookupKV, h, ih]

theorem lookupKV_insertKV_self {α : Type} (m : List (String × α)) (k : String) (v : α) :
    lookupKV (insertKV m k v) k = some v := by
  unfold insertKV
  rw [lookupKV_append, lookupKV_filter_ne]
  simp [lookupKV]

theorem lookupKV_insertKV_ne {α : Type} (m : List (String × α)) (k : String) (v : α)
    (k' : String) (h : k' ≠ k) :
    lookupKV (insertKV m k v) k' = lookupKV m k' := by
  unfold insertKV
  rw [lookupKV_append, lookupKV_filter_other m k k' h]
  cases hm : lookupKV m k' with
  | some v' => rfl
  | none => simp [lookupKV, Ne.symm h]

/-! ### Behaviour of the two cache-or-fetch operations -/

theorem fetchNPMMetadata_cache_hit (w : World) (c : Bool) (st : ResolverState)
    (k : String) (m : packageMetadata) (h : lookupKV st.metaCache k = some m) :
    fetchNPMMetadata w c st k = (.ok m, st, Effects.nofx) := by
  simp [fetchNPMMetadata, cachedMetadata, h]

theorem cdnFiles_cache_hit (w : World) (c : Bool) (st : ResolverState)
    (pn ver : String) (hs : List (String × String))
    (h : lookupKV st.cdnCache (pn ++ "@" ++ ver) = some hs) :
    cdnFiles w c st pn ver = (.ok hs, st, Effects.nofx) := by
  simp [cdnFiles, cachedCDNFiles, h]

theorem fetchNPMMetadata_state_cases (w : World) (c : Bool) (st : ResolverState) (k : String) :
    (fetchNPMMetadata w c st k).2.1 = st ∨
      ∃ m, (fetchNPMMetadata w c st k).1 = .ok m ∧
        (fetchNPMMetadata w c st k).2.1 = storeMetadata st k m := by
  unfold fetchNPMMetadata
  split
  · exact Or.inl rfl
  · split
    · exact Or.inl rfl
    · split
      · exact Or.inl rfl
      · split
        · exact Or.inl rfl
        · split
          · exact Or.inl rfl
          · exact Or.inr ⟨_, rfl, rfl⟩

theorem cdnFiles_state_cases (w : World) (c : Bool) (st : ResolverState) (pn ver : String) :
    (cdnFiles w c st pn ver).2.1 = st ∨
      ∃ hs, (cdnFiles w c st pn ver).1 = .ok hs ∧
        (cdnFiles w c st pn ver).2.1 = storeCDNFiles st pn ver hs := by
  unfold cdnFiles
  split
  · exact Or.inl rfl
  · split
    · exact Or.inl rfl
    · split
      · exact Or.inl rfl
      · split
        · exact Or.inl rfl
        · split
          · exact Or.inl rfl
          · exact Or.inr ⟨_, rfl, rfl⟩

theorem fetchNPMMetadata_ok_lookup (w : World) (c : Bool) (st : ResolverState)
    (k : String) :
    ∀ m, (fetchNPMMetadata w c st k).1 = .ok m →
      lookupKV (fetchNPMMetadata w c st k).2.1.metaCache k = some m ∧
        (fetchNPMMetadata w c st k).2.1.cdnCache = st.cdnCache := by
  unfold fetchNPMMetadata
  split
  · rename_i meta hm
    intro m h
    simp only [Except.ok.injEq] at h
    subst h
    exact ⟨by simpa [cachedMetadata] using hm, rfl⟩
  · split
    · intro m h
      simp at h
    · split
      · intro m h
        simp at h
      · split
        · intro m h
          simp at h
        · split
          · intro m h
            simp at h
          · intro m h
            simp only [Except.ok.injEq] at h
            subst h
            exact ⟨by simp [storeMetadata, lookupKV_insertKV_self], rfl⟩

theorem cdnFiles_ok_lookup (w : World) (c : Bool) (st : ResolverState)
    (pn ver : String) :
    ∀ hs, (cdnFiles w c st pn ver).1 = .ok hs →
      lookupKV (cdnFiles w c st pn ver).2.1.cdnCache (pn ++ "@" ++ ver) = some hs ∧
        (cdnFiles w c st pn ver).2.1.metaCache = st.metaCache := by
  unfold cdnFiles
  split
  · rename_i hashes hm
    intro hs h
    simp only [Except.ok.injEq] at h
    subst h
    exact ⟨by simpa [cachedCDNFiles] using hm, rfl⟩
  · split
    · intro hs h
      simp at h
    · split
      · intro hs h
        simp at h
      · split
        · intro hs h
          simp at h
        · split
          · intro hs h
            simp at h
          · intro hs h
            simp only [Except.ok.injEq] at h
            subst h
            exact ⟨by simp [storeCDNFiles, lookupKV_insertKV_self], rfl⟩

theorem fetchNPMMetadata_listReqs (w : World) (c : Bool) (st : ResolverState) (k : String) :
    (fetchNPMMetadata w c st k).2.2.listReqs = [] := by
  unfold fetchNPMMetadata
  split
  · rfl
  · split
    · rfl
    · split
      · rfl
      · split
        · rfl
        · split <;> rfl

theorem fetchNPMMetadata_miss_eff (w : World) (st : ResolverState) (k : String)
    (h : lookupKV st.metaCache k = none) :
    (fetchNPMMetadata w false st k).2.2 = ⟨[k], []⟩ := by
  unfold fetchNPMMetadata
  simp only [cachedMetadata, h]
  rw [if_neg (by simp : ¬ ((false : Bool) = true))]
  split
  · rfl
  · split
    · rfl
    · split <;> rfl

theorem cdnFiles_miss_eff (w : World) (st : ResolverState) (pn ver : String)
    (h : lookupKV st.cdnCache (pn ++ "@" ++ ver) = none) :
    (cdnFiles w false st pn ver).2.2 = ⟨[], [pn ++ "@" ++ ver]⟩ := by
  unfold cdnFiles
  simp only [cachedCDNFiles, h]
  rw [if_neg (by simp : ¬ ((false : Bool) = true))]
  split
  · rfl
  · split
    · rfl
    · split <;> rfl

/-! ### Composition and inversion of the resolution pipeline -/

theorem ResolveWithContext_ok_of_components (w : World) (c : Bool) (st : ResolverState)
    (pkg : PackageSpec) (md : packageMetadata) (st1 st2 : ResolverState) (eff1 eff2 : Effects)
    (version chosen file : String) (hashes : List (String × String)) (hash : String)
    (hf : fetchNPMMetadata w c st (effectivePackageName pkg) = (.ok md, st1, eff1))
    (hl : latestVersion md pkg.name = .ok version)
    (hc : chooseFile pkg md version = .ok chosen)
    (hs : sanitizeFilePath chosen = .ok file)
    (hcf : cdnFiles w c st1 (effectivePackageName pkg) version = (.ok hashes, st2, eff2))
    (hh : lookupKV hashes file = some hash) :
    ResolveWithContext w c st pkg =
      (.ok { name := pkg.name, file := file, packageName := effectivePackageName pkg,
             integrity := hash, src := cdnSrc (effectivePackageName pkg) version file,
             version := version },
       st2, Effects.app eff1 eff2) := by
  unfold ResolveWithContext includeLink
  simp only [hf, hl, hc, hs, hcf, hh]

theorem ResolveWithContext_latest_err (w : World) (c : Bool) (st : ResolverState)
    (pkg : PackageSpec) (md : packageMetadata) (st1 : ResolverState) (eff1 : Effects)
    (e : ResolveError)
    (hf : fetchNPMMetadata w c st (effectivePackageName pkg) = (.ok md, st1, eff1))
    (hl : latestVersion md pkg.name = .error e) :
    ResolveWithContext w c st pkg = (.error e, st1, eff1) := by
  unfold ResolveWithContext
  simp only [hf, hl]

theorem ResolveWithContext_file_err (w : World) (c : Bool) (st : ResolverState)
    (pkg : PackageSpec) (md : packageMetadata) (st1 : ResolverState) (eff1 : Effects)
    (version : String) (e : ResolveError)
    (hf : fetchNPMMetadata w c st (effectivePackageName pkg) = (.ok md, st1, eff1))
    (hl : latestVersion md pkg.name = .ok version)
    (hc : chooseFile pkg md version = .error e) :
    ResolveWithContext w c st pkg = (.error e, st1, eff1) := by
  unfold ResolveWithContext
  simp only [hf, hl, hc]

theorem ResolveWithContext_sanitize_err (w : World) (c : Bool) (st : ResolverState)
    (pkg : PackageSpec) (md : packageMetadata) (st1 : ResolverState) (eff1 : Effects)
    (version chosen : String) (e : ResolveError)
    (hf : fetchNPMMetadata w c st (effectivePackageName pkg) = (.ok md, st1, eff1))
    (hl : latestVersion md pkg.name = .ok version)
    (hc : chooseFile pkg md version = .ok chosen)
    (hs : sanitizeFilePath chosen = .error e) :
    ResolveWithContext w c st pkg = (.error e, st1, eff1) := by
  unfold ResolveWithContext
  simp only [hf, hl, hc, hs]

theorem ResolveWithContext_cdn_err (w : World) (c : Bool) (st : ResolverState)
    (pkg : PackageSpec) (md : packageMetadata) (st1 st2 : ResolverState) (eff1 eff2 : Effects)
    (version chosen file : String) (e : ResolveError)
    (hf : fetchNPMMetadata w c st (effectivePackageName pkg) = (.ok md, st1, eff1))
    (hl : latestVersion md pkg.name = .ok version)
    (hc : chooseFile pkg md version = .ok chosen)
    (hs : sanitizeFilePath chosen = .ok file)
    (hcf : cdnFiles w c st1 (effectivePackageName pkg) version = (.error e, st2, eff2)) :
    ResolveWithContext w c st pkg = (.error e, st2, Effects.app eff1 eff2) := by
  unfold ResolveWithContext includeLink
  simp only [hf, hl, hc, hs, hcf]

theorem ResolveWithContext_hash_err (w : World) (c : Bool) (st : ResolverState)
    (pkg : PackageSpec) (md : packageMetadata) (st1 st2 : ResolverState) (eff1 eff2 : Effects)
    (version chosen file : String) (hashes : List (String × String))
    (hf : fetchNPMMetadata w c st (effectivePackageName pkg) = (.ok md, st1, eff1))
    (hl : latestVersion md pkg.name = .ok version)
    (hc : chooseFile pkg md version = .ok chosen)
    (hs : sanitizeFilePath chosen = .ok file)
    (hcf : cdnFiles w c st1 (effectivePackageName pkg) version = (.ok hashes, st2, eff2))
    (hh : lookupKV hashes file = none) :
    ResolveWithContext w c st pkg =
      (.error (.fileNotOnCDN file pkg.name), st2, Effects.app eff1 eff2) := by
  unfold ResolveWithContext includeLink
  simp only [hf, hl, hc, hs, hcf, hh]

theorem includeLink_ok_inv (w : World) (c : Bool) (st : ResolverState)
    (pn ver file sn hash src : String) (st2 : ResolverState) (eff2 : Effects)
    (h : includeLink w c st pn ver file sn = (.ok (hash, src), st2, eff2)) :
    ∃ hashes, cdnFiles w c st pn ver = (.ok hashes, st2, eff2) ∧
      lookupKV hashes file = some hash ∧ src = cdnSrc pn ver file := by
  simp only [includeLink] at h
  split at h
  · simp at h
  rename_i hashes stx effx heq
  split at h
  · simp at h
  rename_i hv heq2
  simp only [Prod.mk.injEq, Except.ok.injEq] at h
  obtain ⟨⟨h1, h2⟩, h3, h4⟩ := h
  refine ⟨hashes, ?_, ?_, h2.symm⟩
  · rw [heq, h3, h4]
  · rw [← h1]
    exact heq2

theorem ResolveWithContext_ok_inv (w : World) (c : Bool) (st : ResolverState)
    (pkg : PackageSpec) (r : ResolvedPackage) (st' : ResolverState) (eff : Effects)
    (h : ResolveWithContext w c st pkg = (.ok r, st', eff)) :
    ∃ md st1 eff1 version chosen file hashes st2 eff2 hash,
      fetchNPMMetadata w c st (effectivePackageName pkg) = (.ok md, st1, eff1) ∧
      latestVersion md pkg.name = .ok version ∧
      chooseFile pkg md version = .ok chosen ∧
      sanitizeFilePath chosen = .ok file ∧
      cdnFiles w c st1 (effectivePackageName pkg) version = (.ok hashes, st2, eff2) ∧
      lookupKV hashes file = some hash ∧
      r = { name := pkg.name, file := file, packageName := effectivePackageName pkg,
            integrity := hash, src := cdnSrc (effectivePackageName pkg) version file,
            version := version } ∧
      st' = st2 ∧ eff = Effects.app eff1 eff2 := by
  simp only [ResolveWithContext] at h
  split at h
  · simp at h
  rename_i md st1 eff1 heq1
  split at h
  · simp at h
  rename_i version heq2
  split at h
  · simp at h
  rename_i chosen heq3
  split at h
  · simp at h
  rename_i file heq4
  split at h
  · simp at h
  rename_i integrity src st2 eff2 heq5
  obtain ⟨hashes, hcf, hh, hsrc⟩ :=
    includeLink_ok_inv w c st1 (effectivePackageName pkg) version file pkg.name
      integrity src st2 eff2 heq5
  simp only [Prod.mk.injEq, Except.ok.injEq] at h
  obtain ⟨h1, h2, h3⟩ := h
  subst hsrc
  exact ⟨md, st1, eff1, version, chosen, file, hashes, st2, eff2, integrity,
    heq1, heq2, heq3, heq4, hcf, hh, h1.symm, h2.symm, h3.symm⟩

theorem includeLink_state (w : World) (c : Bool) (st : ResolverState)
    (pn ver file sn : String) :
    (includeLink w c st pn ver file sn).2.1 = (cdnFiles w c st pn ver).2.1 := by
  unfold includeLink
  split
  case _ e stx effx heq => rw [heq]
  case _ hashes stx effx heq => split <;> rw [heq]

theorem ResolveWithContext_state_shape (w : World) (c : Bool) (st : ResolverState)
    (pkg : PackageSpec) :
    ∃ stMid : ResolverState,
      (stMid = st ∨ ∃ m, stMid = storeMetadata st (effectivePackageName pkg) m)
      ∧ ((ResolveWithContext w c st pkg).2.1 = stMid ∨
          ∃ ver hs, (ResolveWithContext w c st pkg).2.1 =
            storeCDNFiles stMid (effectivePackageName pkg) ver hs) := by
  obtain ⟨res, stR, effR, hR⟩ :
      ∃ res stR effR, ResolveWithContext w c st pkg = (res, stR, effR) := ⟨_, _, _, rfl⟩
  rw [hR]
  simp only [ResolveWithContext] at hR
  split at hR
  case _ e st1 eff1 heq =>
    simp only [Prod.mk.injEq] at hR
    obtain ⟨_, hst, _⟩ := hR
    subst hst
    have hsc := fetchNPMMetadata_state_cases w c st (effectivePackageName pkg)
    rw [heq] at hsc
    rcases hsc with h1 | ⟨m, hok, _⟩
    · exact ⟨st1, Or.inl h1, Or.inl rfl⟩
    · exact absurd hok (by simp)
  case _ md st1 eff1 heq =>
    have hsc := fetchNPMMetadata_state_cases w c st (effectivePackageName pkg)
    rw [heq] at hsc
    have hmid : st1 = st ∨ ∃ m, st1 = storeMetadata st (effectivePackageName pkg) m := by
      rcases hsc with h1 | ⟨m, _, hst⟩
      · exact Or.inl h1
      · exact Or.inr ⟨m, hst⟩
    refine ⟨st1, hmid, ?_⟩
    split at hR
    · simp only [Prod.mk.injEq] at hR
      obtain ⟨_, hst, _⟩ := hR
      subst hst
      exact Or.inl rfl
    rename_i version heq2
    split at hR
    · simp only [Prod.mk.injEq] at hR
      obtain ⟨_, hst, _⟩ := hR
      subst hst
      exact Or.inl rfl
    rename_i chosen heq3
    split at hR
    · simp only [Prod.mk.injEq] at hR
      obtain ⟨_, hst, _⟩ := hR
      subst hst
      exact Or.inl rfl
    rename_i file heq4
    have hcc := cdnFiles_state_cases w c st1 (effectivePackageName pkg) version
    have hil := includeLink_state w c st1 (effectivePackageName pkg) version file pkg.name
    split at hR
    case _ e st2 eff2 heq5 =>
      simp only [Prod.mk.injEq] at hR
      obtain ⟨_, hst, _⟩ := hR
      subst hst
      rw [heq5] at hil
      rcases hcc with h1 | ⟨hs, _, hst2⟩
      · exact Or.inl (hil.trans h1)
      · exact Or.inr ⟨version, hs, hil.trans hst2⟩
    case _ integrity src st2 eff2 heq5 =>
      simp only [Prod.mk.injEq] at hR
      obtain ⟨_, hst, _⟩ := hR
      subst hst
      rw [heq5] at hil
      rcases hcc with h1 | ⟨hs, _, hst2⟩
      · exact Or.inl (hil.trans h1)
      · exact Or.inr ⟨version, hs, hil.trans hst2⟩

theorem ResolveWithContext_cache_keys (w : World) (c : Bool) (st : ResolverState)
    (pkg : PackageSpec) :
    (∀ k, k ≠ effectivePackageName pkg →
        lookupKV (ResolveWithContext w c st pkg).2.1.metaCache k = lookupKV st.metaCache k)
    ∧ (∀ k, lookupKV (ResolveWithContext w c st pkg).2.1.cdnCache k ≠ lookupKV st.cdnCache k →
        ∃ ver, k = effectivePackageName pkg ++ "@" ++ ver) := by
  obtain ⟨stMid, hmid, hres⟩ := ResolveWithContext_state_shape w c st pkg
  have hmetaMid : ∀ k, k ≠ effectivePackageName pkg →
      lookupKV stMid.metaCache k = lookupKV st.metaCache k := by
    intro k hk
    rcases hmid with h1 | ⟨m, h1⟩
    · rw [h1]
    · rw [h1]
      exact lookupKV_insertKV_ne st.metaCache (effectivePackageName pkg) m k hk
  have hcdnMid : stMid.cdnCache = st.cdnCache := by
    rcases hmid with h1 | ⟨m, h1⟩
    · rw [h1]
    · rw [h1]
      exact rfl
  constructor
  · intro k hk
    rcases hres with h1 | ⟨ver, hs, h1⟩
    · rw [h1]
      exact hmetaMid k hk
    · rw [h1]
      exact hmetaMid k hk
  · intro k hk
    rcases hres with h1 | ⟨ver, hs, h1⟩
    · rw [h1, hcdnMid] at hk
      exact absurd rfl hk
    · rw [h1] at hk
      by_cases hkey : k = effectivePackageName pkg ++ "@" ++ ver
      · exact ⟨ver, hkey⟩
      · exfalso
        apply hk
        show lookupKV (insertKV stMid.cdnCache (effectivePackageName pkg ++ "@" ++ ver) hs) k =
          lookupKV st.cdnCache k
        rw [lookupKV_insertKV_ne stMid.cdnCache (effectivePackageName pkg ++ "@" ++ ver) hs k hkey,
          hcdnMid]

/-! ### Further fixtures for witnesses and counterexamples -/

/-- The first non-empty string of a candidate list (the spec's description
of the fallback chain: "the first present field wins"). -/
def firstNonEmpty : List String → Option String
  | [] => none
  | s :: rest => if s = "" then firstNonEmpty rest else some s

/-- A version entry exposing only the ES-module and main fields. -/
def moduleOnlyEntry : packageVersion :=
  { jsdelivr := "", unpkg := "", module := "es/index.js", main := "cjs/index.js" }

/-- Metadata whose latest version entry is `moduleOnlyEntry`. -/
def moduleOnlyMeta : packageMetadata :=
  { distTags := some [("latest", "2.0.0")], versions := [("2.0.0", moduleOnlyEntry)] }

/-- A version entry with all four fallback fields empty. -/
def emptyFieldsEntry : packageVersion :=
  { jsdelivr := "", unpkg := "", module := "", main := "" }

/-- Metadata whose latest version entry has no fallback field. -/
def emptyFieldsMeta : packageMetadata :=
  { distTags := some [("latest", "3.0.0")], versions := [("3.0.0", emptyFieldsEntry)] }

/-- World serving `emptyFieldsMeta` for package `foo`. -/
def emptyFieldsWorld : World :=
  { metaResp := fun k =>
      if k = "foo" then .resp 200 "200 OK" (.ok emptyFieldsMeta) else .doErr "no route",
    listResp := fun _ => .doErr "no route" }

/-- Metadata without any dist-tags mapping. -/
def noTagsMeta : packageMetadata := { distTags := none, versions := [] }

/-- World serving `noTagsMeta` for package `foo`. -/
def noTagsWorld : World :=
  { metaResp := fun k =>
      if k = "foo" then .resp 200 "200 OK" (.ok noTagsMeta) else .doErr "no route",
    listResp := fun _ => .doErr "no route" }

/-- Metadata whose dist-tags map the `latest` tag to the empty string. -/
def emptyLatestMeta : packageMetadata :=
  { distTags := some [("latest", "")], versions := [] }

/-- World serving `emptyLatestMeta` for package `foo`. -/
def emptyLatestWorld : World :=
  { metaResp := fun k =>
      if k = "foo" then .resp 200 "200 OK" (.ok emptyLatestMeta) else .doErr "no route",
    listResp := fun _ => .doErr "no route" }

/-! ### Claim theorems -/

/-- C1: for spec `{packageName: "foo", name: "snippet1"}` with no explicit
file, metadata `distTags = {latest: "1.2.3"}`, `versions["1.2.3"].jsdelivr =
"index.js"` and a listing containing `{name: "/index.js", hash:
"HASH_INDEX"}`, `Resolve` succeeds with `version = "1.2.3"`, `file =
"/index.js"`, `integrity = "sha256-HASH_INDEX"` (the listing hash behind
the fixed `"sha256-"` tag), and `src` equal to the CDN asset base URL
concatenated with `"/foo@1.2.3/index.js"`. -/
theorem resolve_end_to_end_happy_path :
    ResolveWithContext demoWorld false initState demoSpec =
      (.ok demoResolved, demoState1, demoEffects1)
    ∧ demoResolved.version = "1.2.3"
    ∧ demoResolved.file = "/index.js"
    ∧ demoResolved.integrity = "sha256-" ++ "HASH_INDEX"
    ∧ demoResolved.src = jsDelivrCdnURL ++ "/foo@1.2.3/index.js" :=
  ⟨rfl, rfl, rfl, rfl, rfl⟩

/-- C2: whenever the versions entry for the resolved version exists, the
default file is the first non-empty field in the fixed order jsdelivr,
unpkg, module, main (root-prefixed); an entry exposing only the module and
main fields resolves to the module field; and when all four fields are
empty and the spec has no explicit file, `Resolve` fails with the
`NoDefaultFile` error naming the package and version. -/
theorem defaultFile_fallback_priority :
    (∀ md packageName name version v,
        lookupKV md.versions version = some v →
        defaultFile md packageName name version =
          (match firstNonEmpty [v.jsdelivr, v.unpkg, v.module, v.main] with
           | some f => .ok ("/" ++ f)
           | none => .error (.noDefaultFile packageName version)))
    ∧ (∀ md packageName name version v,
        lookupKV md.versions version = some v →
        v.jsdelivr = "" → v.unpkg = "" → v.module ≠ "" →
        defaultFile md packageName name version = .ok ("/" ++ v.module))
    ∧ (∀ w c st pkg md st1 eff1 version v,
        pkg.file = "" →
        fetchNPMMetadata w c st (effectivePackageName pkg) = (.ok md, st1, eff1) →
        latestVersion md pkg.name = .ok version →
        lookupKV md.versions version = some v →
        v.jsdelivr = "" → v.unpkg = "" → v.module = "" → v.main = "" →
        ResolveWithContext w c st pkg =
          (.error (.noDefaultFile (effectivePackageName pkg) version), st1, eff1)) := by
  refine ⟨?_, ?_, ?_⟩
  · intro md packageName name version v hv
    unfold defaultFile
    rw [hv]
    by_cases h1 : v.jsdelivr = "" <;> by_cases h2 : v.unpkg = "" <;>
      by_cases h3 : v.module = "" <;> by_cases h4 : v.main = "" <;>
        simp [h1, h2, h3, h4, firstNonEmpty]
  · intro md packageName name version v hv h1 h2 h3
    unfold defaultFile
    rw [hv]
    simp [h1, h2, h3]
  · intro w c st pkg md st1 eff1 version v hfile hf hl hv h1 h2 h3 h4
    have hd : defaultFile md (effectivePackageName pkg) pkg.name version =
        .error (.noDefaultFile (effectivePackageName pkg) version) := by
      unfold defaultFile
      rw [hv]
      simp [h1, h2, h3, h4]
    exact ResolveWithContext_file_err w c st pkg md st1 eff1 version _ hf hl
      (by unfold chooseFile
          rw [if_pos hfile]
          exact hd)

/-- Witness for C2: a module-and-main-only fixture resolves to the module
field, and an all-empty fixture makes `Resolve` fail with `NoDefaultFile`. -/
theorem defaultFile_fallback_priority_witness :
    defaultFile moduleOnlyMeta "foo" "snippet1" "2.0.0" =
      .ok ("/" ++ moduleOnlyEntry.module)
    ∧ ResolveWithContext emptyFieldsWorld false initState demoSpec =
        (.error (.noDefaultFile "foo" "3.0.0"),
         { metaCache := [("foo", emptyFieldsMeta)], cdnCache := [] },
         { metaReqs := ["foo"], listReqs := [] }) :=
  ⟨defaultFile_fallback_priority.2.1 moduleOnlyMeta "foo" "snippet1" "2.0.0"
      moduleOnlyEntry (by decide) (by decide) (by decide) (by decide),
    defaultFile_fallback_priority.2.2 emptyFieldsWorld false initState demoSpec
      emptyFieldsMeta _ _ "3.0.0" emptyFieldsEntry rfl (by decide) (by decide) (by decide)
      rfl rfl rfl rfl⟩

/-- C3: the sanitizer trims surrounding whitespace, fails with `EmptyPath`
on an empty trimmed result, lexically normalizes the root-prefixed path,
fails with `PathResolvesToRoot` when normalization collapses to the root,
and otherwise returns the normalized root-prefixed path; concretely
`"foo.js"` maps to `"/foo.js"`, empty and all-whitespace inputs fail with
`EmptyPath`, and `"/"` and `".."` fail with `PathResolvesToRoot`. -/
theorem sanitizeFilePath_contract :
    (∀ file, trimSpace file = "" → sanitizeFilePath file = .error .emptyPath)
    ∧ (∀ file, trimSpace file ≠ "" → pathCleanRooted ("/" ++ trimSpace file) = "/" →
        sanitizeFilePath file = .error (.pathResolvesToRoot file))
    ∧ (∀ file out, sanitizeFilePath file = .ok out →
        out = pathCleanRooted ("/" ++ trimSpace file) ∧ out ≠ "/" ∧
          ∃ rest, out = "/" ++ rest)
    ∧ sanitizeFilePath "foo.js" = .ok "/foo.js"
    ∧ sanitizeFilePath "" = .error .emptyPath
    ∧ sanitizeFilePath " \t  " = .error .emptyPath
    ∧ sanitizeFilePath "/" = .error (.pathResolvesToRoot "/")
    ∧ sanitizeFilePath ".." = .error (.pathResolvesToRoot "..") := by
  refine ⟨?_, ?_, ?_, by decide, by decide, by decide, by decide, by decide⟩
  · intro file h
    simp [sanitizeFilePath, h]
  · intro file h1 h2
    simp [sanitizeFilePath, h1, h2]
  · intro file out h
    simp only [sanitizeFilePath] at h
    split at h
    · simp at h
    split at h
    · simp at h
    rename_i h1 h2
    simp only [Except.ok.injEq] at h
    subst h
    exact ⟨rfl, h2, joinSegs ((splitSegsAux ("/" ++ trimSpace file).toList []).foldl cleanStep []),
      rfl⟩

/-- Witness for C3: the general contract applied at concrete inputs. -/
theorem sanitizeFilePath_contract_witness :
    sanitizeFilePath "   " = .error .emptyPath
    ∧ sanitizeFilePath "a/.." = .error (.pathResolvesToRoot "a/..")
    ∧ ("/a/b" = pathCleanRooted ("/" ++ trimSpace " a//./b ") ∧ "/a/b" ≠ "/" ∧
        ∃ rest, "/a/b" = "/" ++ rest) :=
  ⟨sanitizeFilePath_contract.1 "   " (by decide),
    sanitizeFilePath_contract.2.1 "a/.." (by decide) (by decide),
    sanitizeFilePath_contract.2.2.1 " a//./b " "/a/b" (by decide)⟩

/-- C5: with the metadata key not yet cached, an already-canceled
cancellation token makes `ResolveWithContext` fail with the cancellation
transport error before any network request is issued: the state is
unchanged and the request log is empty. -/
theorem resolve_canceled_no_network (w : World) (st : ResolverState) (pkg : PackageSpec)
    (h : lookupKV st.metaCache (effectivePackageName pkg) = none) :
    ResolveWithContext w true st pkg =
      (.error (.transportError contextCanceled), st, Effects.nofx) := by
  have hf : fetchNPMMetadata w true st (effectivePackageName pkg) =
      (.error (.transportError contextCanceled), st, Effects.nofx) := by
    simp [fetchNPMMetadata, cachedMetadata, h]
  unfold ResolveWithContext
  simp only [hf]

/-- Witness for C5 on a fresh resolver and the happy-path fixture. -/
theorem resolve_canceled_no_network_witness :
    ResolveWithContext demoWorld true initState demoSpec =
      (.error (.transportError contextCanceled), initState, Effects.nofx) :=
  resolve_canceled_no_network demoWorld initState demoSpec rfl

/-- C6: when the fetched metadata has no dist-tags mapping or no `latest`
entry, `Resolve` fails with the `NoLatestVersion`-kind error naming the
package, and no listing request is issued. -/
theorem resolve_missing_latest_tag (w : World) (c : Bool) (st : ResolverState)
    (pkg : PackageSpec) (md : packageMetadata) (st1 : ResolverState) (eff1 : Effects)
    (hf : fetchNPMMetadata w c st (effectivePackageName pkg) = (.ok md, st1, eff1))
    (hbad : md.distTags = none ∨
      ∃ tags, md.distTags = some tags ∧ lookupKV tags "latest" = none) :
    (∃ e, ResolveWithContext w c st pkg = (.error e, st1, eff1)
        ∧ (e = .noDistTags pkg.name ∨ e = .noLatestTag pkg.name))
    ∧ eff1.listReqs = [] := by
  constructor
  · rcases hbad with hnone | ⟨tags, hsome, hlk⟩
    · exact ⟨.noDistTags pkg.name,
        ResolveWithContext_latest_err w c st pkg md st1 eff1 _ hf
          (by simp [latestVersion, hnone]),
        Or.inl rfl⟩
    · exact ⟨.noLatestTag pkg.name,
        ResolveWithContext_latest_err w c st pkg md st1 eff1 _ hf
          (by simp [latestVersion, hsome, hlk]),
        Or.inr rfl⟩
  · have hfx := fetchNPMMetadata_listReqs w c st (effectivePackageName pkg)
    rw [hf] at hfx
    exact hfx

/-- Witness for C6: a metadata document without dist-tags makes the
resolution fail with the dist-tags error and an empty listing request log. -/
theorem resolve_missing_latest_tag_witness :
    (∃ e, ResolveWithContext noTagsWorld false initState demoSpec =
        (.error e, { metaCache := [("foo", noTagsMeta)], cdnCache := [] },
          { metaReqs := ["foo"], listReqs := [] })
      ∧ (e = .noDistTags "snippet1" ∨ e = .noLatestTag "snippet1"))
    ∧ Effects.listReqs { metaReqs := ["foo"], listReqs := [] } = [] :=
  resolve_missing_latest_tag noTagsWorld false initState demoSpec noTagsMeta
    _ _ rfl (Or.inl rfl)

/-- C10: a dist-tags mapping whose `latest` entry is the empty string is
treated as missing: `Resolve` fails with the no-latest-tag error naming the
package, and no listing request is issued. -/
theorem resolve_empty_latest_tag (w : World) (c : Bool) (st : ResolverState)
    (pkg : PackageSpec) (md : packageMetadata) (st1 : ResolverState) (eff1 : Effects)
    (tags : List (String × String))
    (hf : fetchNPMMetadata w c st (effectivePackageName pkg) = (.ok md, st1, eff1))
    (htags : md.distTags = some tags)
    (hempty : lookupKV tags "latest" = some "") :
    ResolveWithContext w c st pkg = (.error (.noLatestTag pkg.name), st1, eff1)
    ∧ eff1.listReqs = [] := by
  constructor
  · exact ResolveWithContext_latest_err w c st pkg md st1 eff1 _ hf
      (by simp [latestVersion, htags, hempty])
  · have hfx := fetchNPMMetadata_listReqs w c st (effectivePackageName pkg)
    rw [hf] at hfx
    exact hfx

/-- Witness for C10: a fixture whose `latest` tag is the empty string. -/
theorem resolve_empty_latest_tag_witness :
    ResolveWithContext emptyLatestWorld false initState demoSpec =
      (.error (.noLatestTag "snippet1"),
        { metaCache := [("foo", emptyLatestMeta)], cdnCache := [] },
        { metaReqs := ["foo"], listReqs := [] })
    ∧ Effects.listReqs { metaReqs := ["foo"], listReqs := [] } = [] :=
  resolve_empty_latest_tag emptyLatestWorld false initState demoSpec emptyLatestMeta
    _ _ [("latest", "")] rfl rfl rfl

/-- C4: the fetchers return the cached value when one is present under the
key and only otherwise go to the network; hence resolving the same spec
twice on a fresh resolver issues exactly one metadata request and one
listing request in total: the second call performs no network effect,
leaves the caches unchanged and returns the same `ResolvedPackage`. -/
theorem resolve_twice_single_request :
    (∀ w c st k m, lookupKV st.metaCache k = some m →
        fetchNPMMetadata w c st k = (.ok m, st, Effects.nofx))
    ∧ (∀ w c st pn ver hs, lookupKV st.cdnCache (pn ++ "@" ++ ver) = some hs →
        cdnFiles w c st pn ver = (.ok hs, st, Effects.nofx))
    ∧ (∀ w pkg r st1 eff1,
        ResolveWithContext w false initState pkg = (.ok r, st1, eff1) →
        ResolveWithContext w false st1 pkg = (.ok r, st1, Effects.nofx)
        ∧ eff1.metaReqs.length = 1 ∧ eff1.listReqs.length = 1) := by
  refine ⟨fun w c st k m h => fetchNPMMetadata_cache_hit w c st k m h,
    fun w c st pn ver hs h => cdnFiles_cache_hit w c st pn ver hs h, ?_⟩
  intro w pkg r st1 eff1 h
  obtain ⟨md, stA, effA, version, chosen, file, hashes, st1, effB, hash,
    hf, hl, hc, hsan, hcf, hh, hr, hst, heff⟩ :=
    ResolveWithContext_ok_inv w false initState pkg r st1 eff1 h
  subst hr
  subst hst
  subst heff
  have hfl := fetchNPMMetadata_ok_lookup w false initState (effectivePackageName pkg) md
    (by rw [hf])
  rw [hf] at hfl
  have hcl := cdnFiles_ok_lookup w false stA (effectivePackageName pkg) version hashes
    (by rw [hcf])
  rw [hcf] at hcl
  have hf2 : fetchNPMMetadata w false st1 (effectivePackageName pkg) =
      (.ok md, st1, Effects.nofx) := by
    apply fetchNPMMetadata_cache_hit
    have hmeq : st1.metaCache = stA.metaCache := hcl.2
    rw [hmeq]
    exact hfl.1
  have hcf2 : cdnFiles w false st1 (effectivePackageName pkg) version =
      (.ok hashes, st1, Effects.nofx) :=
    cdnFiles_cache_hit w false st1 (effectivePackageName pkg) version hashes hcl.1
  refine ⟨ResolveWithContext_ok_of_components w false st1 pkg md st1 st1
      Effects.nofx Effects.nofx version chosen file hashes hash hf2 hl hc hsan hcf2 hh, ?_, ?_⟩
  · have hme : effA = ⟨[effectivePackageName pkg], []⟩ := by
      have hx := fetchNPMMetadata_miss_eff w initState (effectivePackageName pkg) rfl
      rw [hf] at hx
      exact hx
    have hle : effB = ⟨[], [effectivePackageName pkg ++ "@" ++ version]⟩ := by
      have hnone : lookupKV stA.cdnCache (effectivePackageName pkg ++ "@" ++ version) = none := by
        have hceq : stA.cdnCache = initState.cdnCache := hfl.2
        rw [hceq]
        rfl
      have hx := cdnFiles_miss_eff w stA (effectivePackageName pkg) version hnone
      rw [hcf] at hx
      exact hx
    rw [hme, hle]
    rfl
  · have hme : effA = ⟨[effectivePackageName pkg], []⟩ := by
      have hx := fetchNPMMetadata_miss_eff w initState (effectivePackageName pkg) rfl
      rw [hf] at hx
      exact hx
    have hle : effB = ⟨[], [effectivePackageName pkg ++ "@" ++ version]⟩ := by
      have hnone : lookupKV stA.cdnCache (effectivePackageName pkg ++ "@" ++ version) = none := by
        have hceq : stA.cdnCache = initState.cdnCache := hfl.2
        rw [hceq]
        rfl
      have hx := cdnFiles_miss_eff w stA (effectivePackageName pkg) version hnone
      rw [hcf] at hx
      exact hx
    rw [hme, hle]
    rfl

/-- Witness for C4: the happy-path fixture resolved a second time from the
populated caches returns the same result without effects, and the first
call counted one request per endpoint. -/
theorem resolve_twice_single_request_witness :
    ResolveWithContext demoWorld false demoState1 demoSpec =
      (.ok demoResolved, demoState1, Effects.nofx)
    ∧ demoEffects1.metaReqs.length = 1 ∧ demoEffects1.listReqs.length = 1 :=
  resolve_twice_single_request.2.2 demoWorld demoSpec demoResolved demoState1 demoEffects1 rfl

/-- C9: failures are side-effect-free on the caches: a fetch that fails
(transport, status or decode) leaves the resolver state exactly as it was,
and a failed resolution can only have touched the metadata entry of its own
package and listing entries of the form `packageName@version` — every other
key still maps to what it mapped to before the call. -/
theorem resolve_failure_atomicity :
    (∀ w c st k e st' eff, fetchNPMMetadata w c st k = (.error e, st', eff) → st' = st)
    ∧ (∀ w c st pn ver e st' eff, cdnFiles w c st pn ver = (.error e, st', eff) → st' = st)
    ∧ (∀ w c st pkg e st' eff,
        ResolveWithContext w c st pkg = (.error e, st', eff) →
        (∀ k, k ≠ effectivePackageName pkg →
            lookupKV st'.metaCache k = lookupKV st.metaCache k)
        ∧ (∀ k, lookupKV st'.cdnCache k ≠ lookupKV st.cdnCache k →
            ∃ ver, k = effectivePackageName pkg ++ "@" ++ ver)) := by
  refine ⟨?_, ?_, ?_⟩
  · intro w c st k e st' eff h
    have hsc := fetchNPMMetadata_state_cases w c st k
    rw [h] at hsc
    rcases hsc with h1 | ⟨m, hok, _⟩
    · exact h1
    · exact absurd hok (by simp)
  · intro w c st pn ver e st' eff h
    have hsc := cdnFiles_state_cases w c st pn ver
    rw [h] at hsc
    rcases hsc with h1 | ⟨hs, hok, _⟩
    · exact h1
    · exact absurd hok (by simp)
  · intro w c st pkg e st' eff h
    have hck := ResolveWithContext_cache_keys w c st pkg
    rw [h] at hck
    exact hck

/-- Witness for C9: after the failed no-dist-tags resolution, a foreign
metadata key (`bar`) is still absent from the cache. -/
theorem resolve_failure_atomicity_witness :
    lookupKV ({ metaCache := [("foo", noTagsMeta)], cdnCache := [] } : ResolverState).metaCache
        "bar" =
      lookupKV initState.metaCache "bar" :=
  (resolve_failure_atomicity.2.2 noTagsWorld false initState demoSpec
      (.noDistTags "snippet1") { metaCache := [("foo", noTagsMeta)], cdnCache := [] }
      { metaReqs := ["foo"], listReqs := [] } rfl).1 "bar" (by decide)

/-- The availability errors of the spec taxonomy: transport failures and
non-success statuses (`MetadataUnavailable` / `ListingUnavailable` /
`TransportError`), as opposed to decode or semantic failures. -/
def ResolveError.isAvailability : ResolveError → Bool
  | .transportError _ => true
  | .metadataStatus _ _ => true
  | .listingStatus _ _ => true
  | _ => false

/-- Whether a step result is an availability error. -/
def availErr {α : Type} : Except ResolveError α → Bool
  | .error e => e.isAvailability
  | .ok _ => false

/-- Whether a remote call errored or answered with a status other than 200. -/
def DoResult.non200 {α : Type} : DoResult α → Bool
  | .doErr _ => true
  | .resp code _ _ => code ≠ 200

/-- A registry answering every metadata request with status 204 (a success
status that is not 200) and a decodable body. -/
def c7World : World :=
  { metaResp := fun _ => .resp 204 "204 No Content" (.ok demoMeta),
    listResp := fun _ => .doErr "unused" }

/-- C7 counterexample: a metadata response with the 2xx success status 204
and a perfectly decodable body is rejected with the status error — the code
compares against 200 exactly, not against the 2xx class, so "a response
with a success (2xx) status is not rejected on status grounds" fails. -/
theorem metadata_2xx_rejected_counterexample :
    fetchNPMMetadata c7World false initState "foo" =
      (.error (.metadataStatus "foo" "204 No Content"), initState,
        { metaReqs := ["foo"], listReqs := [] })
    ∧ 200 ≤ 204 ∧ 204 < 300 :=
  ⟨rfl, by decide, by decide⟩

/-- C7 amended: with the key uncached, the metadata fetch fails with an
availability (transport/status) error exactly when the remote call errors
or the status differs from 200 — any non-200 status is rejected, other 2xx
statuses included — and a 200 response with a decodable body is accepted
and its decoded metadata used. -/
theorem metadata_status_exactly_200 (w : World) (st : ResolverState) (k : String)
    (hmiss : lookupKV st.metaCache k = none) :
    availErr (fetchNPMMetadata w false st k).1 = (w.metaResp k).non200
    ∧ (∀ code status md, w.metaResp k = .resp code status (.ok md) → code = 200 →
        (fetchNPMMetadata w false st k).1 = .ok md) := by
  constructor
  · unfold fetchNPMMetadata
    simp only [cachedMetadata, hmiss]
    rw [if_neg (by simp : ¬ ((false : Bool) = true))]
    cases hw : w.metaResp k with
    | doErr msg => simp [availErr, ResolveError.isAvailability, DoResult.non200]
    | resp code status body =>
      by_cases hc : code = 200
      · subst hc
        cases body <;>
          simp [availErr, ResolveError.isAvailability, DoResult.non200]
      · simp [hc, availErr, ResolveError.isAvailability, DoResult.non200]
  · intro code status md hw hcode
    subst hcode
    unfold fetchNPMMetadata
    simp [cachedMetadata, hmiss, hw]

/-- Witness for C7's amended claim on the happy-path fixture: a 200
response is not an availability error and decodes to the served metadata. -/
theorem metadata_status_exactly_200_witness :
    availErr (fetchNPMMetadata demoWorld false initState "foo").1 =
      (demoWorld.metaResp "foo").non200
    ∧ (fetchNPMMetadata demoWorld false initState "foo").1 = .ok demoMeta :=
  ⟨(metadata_status_exactly_200 demoWorld initState "foo" rfl).1,
    (metadata_status_exactly_200 demoWorld initState "foo" rfl).2 200 "200 OK" demoMeta rfl rfl⟩

/-- Replace the alternate entry-point fields (unpkg, module, main) of a
version entry, keeping the jsDelivr field. -/
def setAltFields (v : packageVersion) (u m mn : String) : packageVersion :=
  { v with unpkg := u, module := m, main := mn }

/-- Entry transformer behind `mapVersionFields`: apply `setAltFields` to
the entry keyed by `version`, leave every other entry alone. -/
def mapVersionEntry (version u m mn : String) (p : String × packageVersion) :
    String × packageVersion :=
  if p.1 = version then (p.1, setAltFields p.2 u m mn) else p

/-- Replace the alternate entry-point fields of one version's entry inside
a metadata document. -/
def mapVersionFields (md : packageMetadata) (version u m mn : String) : packageMetadata :=
  { md with versions := md.versions.map (mapVersionEntry version u m mn) }

/-- A world identical to `w` except that the metadata served for `key` has
the alternate entry-point fields of `version` replaced. -/
def tweakWorld (w : World) (key version u m mn : String) : World :=
  { metaResp := fun k =>
      if k = key then
        match w.metaResp k with
        | .resp code status (.ok md) =>
          .resp code status (.ok (mapVersionFields md version u m mn))
        | other => other
      else w.metaResp k,
    listResp := w.listResp }

theorem lookupKV_map_at (l : List (String × packageVersion)) (ver u m mn : String) :
    lookupKV (l.map (mapVersionEntry ver u m mn)) ver =
      (lookupKV l ver).map (fun v => setAltFields v u m mn) := by
  induction l with
  | nil => rfl
  | cons p t ih =>
    by_cases hp : p.1 = ver
    · simp [lookupKV, mapVersionEntry, hp]
    · simp [lookupKV, mapVersionEntry, hp, ih]

theorem latestVersion_mapVersionFields (md : packageMetadata) (version u m mn n : String) :
    latestVersion (mapVersionFields md version u m mn) n = latestVersion md n := rfl

theorem cdnFiles_ext (w w' : World) (c : Bool) (st st' : ResolverState) (pn ver : String)
    (hlst : w'.listResp = w.listResp) (hcc : st'.cdnCache = st.cdnCache) :
    (cdnFiles w' c st' pn ver).1 = (cdnFiles w c st pn ver).1
    ∧ (cdnFiles w' c st' pn ver).2.1.cdnCache = (cdnFiles w c st pn ver).2.1.cdnCache
    ∧ (cdnFiles w' c st' pn ver).2.2 = (cdnFiles w c st pn ver).2.2 := by
  unfold cdnFiles
  simp only [cachedCDNFiles, hlst, hcc]
  split
  · exact ⟨rfl, hcc, rfl⟩
  · split
    · exact ⟨rfl, hcc, rfl⟩
    · split
      · exact ⟨rfl, hcc, rfl⟩
      · split
        · exact ⟨rfl, hcc, rfl⟩
        · split
          · exact ⟨rfl, hcc, rfl⟩
          · exact ⟨rfl, by simp [storeCDNFiles, hcc], rfl⟩

theorem cdnFiles_ext_tuple (w w' : World) (c : Bool) (st st' : ResolverState)
    (pn ver : String) (hlst : w'.listResp = w.listResp) (hcc : st'.cdnCache = st.cdnCache)
    (res : Except ResolveError (List (String × String))) (st2 : ResolverState) (eff2 : Effects)
    (h : cdnFiles w c st pn ver = (res, st2, eff2)) :
    ∃ st2', cdnFiles w' c st' pn ver = (res, st2', eff2) ∧ st2'.cdnCache = st2.cdnCache := by
  obtain ⟨h1, h2, h3⟩ := cdnFiles_ext w w' c st st' pn ver hlst hcc
  rw [h] at h1 h2 h3
  obtain ⟨res', st2', eff2', hW⟩ : ∃ a b c2, cdnFiles w' c st' pn ver = (a, b, c2) :=
    ⟨_, _, _, rfl⟩
  rw [hW] at h1 h2 h3
  have hres : res' = res := h1
  have heff : eff2' = eff2 := h3
  have hcc2 : st2'.cdnCache = st2.cdnCache := h2
  subst hres
  subst heff
  exact ⟨st2', hW, hcc2⟩

/-- World of the C8 counterexample: same metadata as the happy-path fixture
(jsdelivr = `index.js`), but the listing serves `/other.js`. -/
def c8World : World :=
  { metaResp := fun k =>
      if k = "foo" then .resp 200 "200 OK" (.ok demoMeta) else .doErr "no route",
    listResp := fun k =>
      if k = "foo@1.2.3" then
        .resp 200 "200 OK" (.ok [{ name := "/other.js", hash := "HASH_OTHER" }])
      else .doErr "no route" }

/-- A spec carrying an explicit file, so the fallback chain is bypassed. -/
def c8Spec : PackageSpec := { name := "snippet1", file := "other.js", packageName := "foo" }

/-- The resolution the C8 counterexample produces. -/
def c8Resolved : ResolvedPackage :=
  { name := "snippet1", file := "/other.js", packageName := "foo",
    integrity := "sha256-HASH_OTHER",
    src := "https://cdn.jsdelivr.net/npm/foo@1.2.3/other.js", version := "1.2.3" }

/-- C8 counterexample: a `PackageSpec` with an explicit file resolves to
that file even though `versions[latest]` has a populated, non-empty
jsdelivr field — so "for any PackageSpec ... `Resolve` returns a file equal
to that field root-prefixed" fails: the claim only holds for specs whose
file field is empty. -/
theorem jsdelivr_explicit_file_counterexample :
    (ResolveWithContext c8World false initState c8Spec).1 = .ok c8Resolved
    ∧ (lookupKV demoMeta.versions "1.2.3").map packageVersion.jsdelivr = some "index.js"
    ∧ c8Resolved.file = "/other.js"
    ∧ c8Resolved.file ≠ "/" ++ "index.js" :=
  ⟨rfl, rfl, rfl, by decide⟩

/-- C8 amended: for every `PackageSpec` whose file field is empty, when the
resolved version's entry has a non-empty jsdelivr field, the resolved file
is the sanitized root-prefixed jsdelivr value (hence `"/" ++ jsdelivr`
whenever that string is already normalized), and the unpkg/module/main
fields are never consulted: replacing them by arbitrary values yields the
same resolution outcome. -/
theorem resolve_jsdelivr_priority :
    (∀ w c st pkg md st1 eff1 version v r st' eff,
        pkg.file = "" →
        fetchNPMMetadata w c st (effectivePackageName pkg) = (.ok md, st1, eff1) →
        latestVersion md pkg.name = .ok version →
        lookupKV md.versions version = some v →
        v.jsdelivr ≠ "" →
        ResolveWithContext w c st pkg = (.ok r, st', eff) →
        sanitizeFilePath ("/" ++ v.jsdelivr) = .ok r.file)
    ∧ (∀ w st pkg u m mn md version v statusText,
        pkg.file = "" →
        lookupKV st.metaCache (effectivePackageName pkg) = none →
        w.metaResp (effectivePackageName pkg) = .resp 200 statusText (.ok md) →
        latestVersion md pkg.name = .ok version →
        lookupKV md.versions version = some v →
        v.jsdelivr ≠ "" →
        (ResolveWithContext
            (tweakWorld w (effectivePackageName pkg) version u m mn) false st pkg).1
          = (ResolveWithContext w false st pkg).1) := by
  constructor
  · intro w c st pkg md st1 eff1 version v r st' eff hfile hf hl hv hjs hres
    obtain ⟨md', stA, effA, version', chosen, file, hashes, stB, effB, hash,
      hf', hl', hc', hsan', hcf', hh', hr, _, _⟩ :=
      ResolveWithContext_ok_inv w c st pkg r st' eff hres
    rw [hf] at hf'
    simp only [Prod.mk.injEq, Except.ok.injEq] at hf'
    obtain ⟨hmd, _, _⟩ := hf'
    subst hmd
    rw [hl] at hl'
    simp only [Except.ok.injEq] at hl'
    subst hl'
    have hchoose : chooseFile pkg md version = .ok ("/" ++ v.jsdelivr) := by
      unfold chooseFile
      rw [if_pos hfile]
      unfold defaultFile
      simp only [hv]
      rw [if_pos hjs]
    rw [hchoose] at hc'
    simp only [Except.ok.injEq] at hc'
    subst hc'
    rw [hr]
    exact hsan'
  · intro w st pkg u m mn md version v statusText hfile hmiss hw hl hv hjs
    have hf1 : fetchNPMMetadata w false st (effectivePackageName pkg) =
        (.ok md, storeMetadata st (effectivePackageName pkg) md,
          ⟨[effectivePackageName pkg], []⟩) := by
      unfold fetchNPMMetadata
      simp [cachedMetadata, hmiss, hw]
    have hw2 : (tweakWorld w (effectivePackageName pkg) version u m mn).metaResp
        (effectivePackageName pkg) =
        .resp 200 statusText (.ok (mapVersionFields md version u m mn)) := by
      simp [tweakWorld, hw]
    have hf2 : fetchNPMMetadata (tweakWorld w (effectivePackageName pkg) version u m mn)
        false st (effectivePackageName pkg) =
        (.ok (mapVersionFields md version u m mn),
          storeMetadata st (effectivePackageName pkg) (mapVersionFields md version u m mn),
          ⟨[effectivePackageName pkg], []⟩) := by
      unfold fetchNPMMetadata
      simp [cachedMetadata, hmiss, hw2]
    have hl2 : latestVersion (mapVersionFields md version u m mn) pkg.name = .ok version := by
      rw [latestVersion_mapVersionFields]
      exact hl
    have hchoose1 : chooseFile pkg md version = .ok ("/" ++ v.jsdelivr) := by
      unfold chooseFile
      rw [if_pos hfile]
      unfold defaultFile
      simp only [hv]
      rw [if_pos hjs]
    have hv2 : lookupKV (mapVersionFields md version u m mn).versions version =
        some (setAltFields v u m mn) := by
      show lookupKV (md.versions.map (mapVersionEntry version u m mn)) version =
        some (setAltFields v u m mn)
      rw [lookupKV_map_at, hv]
      rfl
    have hchoose2 : chooseFile pkg (mapVersionFields md version u m mn) version =
        .ok ("/" ++ v.jsdelivr) := by
      unfold chooseFile
      rw [if_pos hfile]
      unfold defaultFile
      simp only [hv2]
      rw [if_pos (show (setAltFields v u m mn).jsdelivr ≠ "" from hjs)]
      rfl
    cases hsan : sanitizeFilePath ("/" ++ v.jsdelivr) with
    | error e =>
      rw [ResolveWithContext_sanitize_err w false st pkg md _ _ version _ e hf1 hl
          hchoose1 hsan,
        ResolveWithContext_sanitize_err _ false st pkg _ _ _ version _ e hf2 hl2
          hchoose2 hsan]
    | ok file =>
      obtain ⟨res2, st2, eff2, hcf⟩ :
          ∃ a b c2, cdnFiles w false (storeMetadata st (effectivePackageName pkg) md)
            (effectivePackageName pkg) version = (a, b, c2) := ⟨_, _, _, rfl⟩
      obtain ⟨st2x, hcf2, _⟩ :=
        cdnFiles_ext_tuple w (tweakWorld w (effectivePackageName pkg) version u m mn)
          false (storeMetadata st (effectivePackageName pkg) md)
          (storeMetadata st (effectivePackageName pkg) (mapVersionFields md version u m mn))
          (effectivePackageName pkg) version rfl rfl res2 st2 eff2 hcf
      cases res2 with
      | error e =>
        rw [ResolveWithContext_cdn_err w false st pkg md _ _ _ _ version _ file e
            hf1 hl hchoose1 hsan hcf,
          ResolveWithContext_cdn_err _ false st pkg _ _ _ _ _ version _ file e
            hf2 hl2 hchoose2 hsan hcf2]
      | ok hashes =>
        cases hh : lookupKV hashes file with
        | none =>
          rw [ResolveWithContext_hash_err w false st pkg md _ _ _ _ version _ file hashes
              hf1 hl hchoose1 hsan hcf hh,
            ResolveWithContext_hash_err _ false st pkg _ _ _ _ _ version _ file hashes
              hf2 hl2 hchoose2 hsan hcf2 hh]
        | some hash =>
          rw [ResolveWithContext_ok_of_components w false st pkg md _ _ _ _ version _ file
              hashes hash hf1 hl hchoose1 hsan hcf hh,
            ResolveWithContext_ok_of_components _ false st pkg _ _ _ _ _ version _ file
              hashes hash hf2 hl2 hchoose2 hsan hcf2 hh]

/-- Witness for C8's amended claim on the happy-path fixture: the resolved
file is the sanitized jsdelivr field, and replacing the alternate fields
leaves the outcome unchanged. -/
theorem resolve_jsdelivr_priority_witness :
    sanitizeFilePath ("/" ++ demoEntry.jsdelivr) = .ok demoResolved.file
    ∧ (ResolveWithContext (tweakWorld demoWorld "foo" "1.2.3" "u.js" "m.js" "c.js")
          false initState demoSpec).1
        = (ResolveWithContext demoWorld false initState demoSpec).1 :=
  ⟨resolve_jsdelivr_priority.1 demoWorld false initState demoSpec demoMeta _ _ "1.2.3"
      demoEntry demoResolved _ _ rfl rfl rfl rfl (by decide) rfl,
    resolve_jsdelivr_priority.2 demoWorld initState demoSpec "u.js" "m.js" "c.js" demoMeta
      "1.2.3" demoEntry "200 OK" rfl rfl rfl rfl rfl (by decide)⟩

end CdnResolver
